import Mathlib

/-!
Shallow embedding of the firebird-mcp server (`firebird-mcp.py`).

The embedding models:
  * the Firebird system-catalog tables touched by the two introspection
    queries (`RDB$RELATIONS`, `RDB$RELATION_FIELDS`, `RDB$FIELDS`,
    `RDB$INDEX_SEGMENTS`, `RDB$INDICES`, `RDB$RELATION_CONSTRAINTS`);
  * the SQL semantics the two queries rely on: `TRIM`, CHAR equality
    (trailing-blank insensitive), `LEFT JOIN` (null-extended rows),
    `GROUP BY` with `MIN` aggregation (ignoring nulls), `ORDER BY`;
  * the Python post-processing of each fetched row into a `ColInfo`
    (`str(x or "").strip()`, `int(x or 0)`, truthiness tests);
  * the driver surface used by `execute_query` (`cursor.description`,
    `fetchall`, `rowcount`, `commit`) with exceptions as `Except` and the
    commit as an explicit boolean in the result.
-/

/-- SQL `TRIM`: strip leading and trailing blanks (the padding character of
CHAR columns). -/
def sqlTrim (s : String) : String :=
  String.mk (((s.toList.dropWhile (· == ' ')).reverse.dropWhile (· == ' ')).reverse)

/-- SQL equality on CHAR catalog identifiers: trailing-blank insensitive. -/
def chEq (a b : String) : Bool := sqlTrim a == sqlTrim b

/-- Python `str.strip()` (strips all leading and trailing whitespace). -/
def pyStrip (s : String) : String :=
  String.mk (((s.toList.dropWhile Char.isWhitespace).reverse.dropWhile Char.isWhitespace).reverse)

/-- Python `str.upper()` (per-character upper-casing). -/
def pyUpper (s : String) : String := String.mk (s.toList.map Char.toUpper)

/-- `str(x or "").strip() if x else None`: a falsy value (`None` or the empty
string) becomes `None`, otherwise the string is stripped. -/
def pyOptStr (o : Option String) : Option String :=
  match o with
  | none => none
  | some s => if s = "" then none else some (pyStrip s)

/-- The `CASE f.RDB$FIELD_TYPE WHEN ... ELSE 'UNKNOWN' END` decode table of
`describe_table`. -/
def fieldTypeName (c : Int) : String :=
  if c = 261 then "BLOB"
  else if c = 14 then "CHAR"
  else if c = 40 then "CSTRING"
  else if c = 11 then "D_FLOAT"
  else if c = 27 then "DOUBLE"
  else if c = 10 then "FLOAT"
  else if c = 16 then "INT64"
  else if c = 8 then "INTEGER"
  else if c = 9 then "QUAD"
  else if c = 7 then "SMALLINT"
  else if c = 12 then "DATE"
  else if c = 13 then "TIME"
  else if c = 35 then "TIMESTAMP"
  else if c = 37 then "VARCHAR"
  else "UNKNOWN"

/-- The type codes the `CASE` expression recognizes. -/
def knownTypeCodes : List Int :=
  [261, 14, 40, 11, 27, 10, 16, 8, 9, 7, 12, 13, 35, 37]

/-- One row of `RDB$RELATIONS`. -/
structure RelationRow where
  relationName : String
  viewBlr : Option String
  systemFlag : Option Int
deriving DecidableEq

/-- One row of `RDB$RELATION_FIELDS`. -/
structure RelationField where
  relationName : String
  fieldName : String
  fieldSource : String
  fieldPosition : Int
  nullFlag : Option Int
  defaultSource : Option String
  systemFlag : Option Int
deriving DecidableEq

/-- One row of `RDB$FIELDS`. -/
structure FieldDef where
  fieldName : String
  fieldType : Int
  fieldLength : Option Int
  fieldPrecision : Option Int
  fieldScale : Option Int
deriving DecidableEq

/-- One row of `RDB$INDEX_SEGMENTS`. -/
structure IndexSegment where
  indexName : String
  fieldName : String
deriving DecidableEq

/-- One row of `RDB$INDICES`. -/
structure IndexRow where
  indexName : String
  relationName : String
deriving DecidableEq

/-- One row of `RDB$RELATION_CONSTRAINTS`. -/
structure RelationConstraint where
  constraintName : String
  constraintType : String
  relationName : String
  indexName : String
deriving DecidableEq

/-- The system catalog visible to the two introspection queries. -/
structure Catalog where
  relations : List RelationRow
  relationFields : List RelationField
  fields : List FieldDef
  indexSegments : List IndexSegment
  indices : List IndexRow
  relationConstraints : List RelationConstraint
deriving DecidableEq

/-- `rdb$system_flag is null or rdb$system_flag = 0`. -/
def sysFlagOk (f : Option Int) : Bool :=
  match f with
  | none => true
  | some v => v == 0

/-- The `WHERE` filter of the `list_tables` query:
`rdb$view_blr IS NULL AND (rdb$system_flag IS NULL OR rdb$system_flag = 0)`. -/
def relationOk (rel : RelationRow) : Bool :=
  rel.viewBlr.isNone && sysFlagOk rel.systemFlag

/-- `ORDER BY` comparison on trimmed names (ascending). -/
def nameLE (a b : String) : Prop := a ≤ b

instance : DecidableRel nameLE :=
  fun a b => decidable_of_iff (a.toList ≤ b.toList) String.le_iff_toList_le.symm

instance : IsTotal String nameLE := ⟨fun a b => le_total a b⟩

instance : IsTrans String nameLE := ⟨fun _ _ _ h h2 => le_trans h h2⟩

/-- `list_tables`: `SELECT TRIM(rdb$relation_name) FROM rdb$relations WHERE
rdb$view_blr IS NULL AND (rdb$system_flag IS NULL OR rdb$system_flag = 0)
ORDER BY 1`, then `[row[0] for row in cur.fetchall()]`. -/
def list_tables (cat : Catalog) : List String :=
  List.insertionSort nameLE
    (((cat.relations.filter relationOk).map (fun rel => sqlTrim rel.relationName)))

/-- SQL `LEFT JOIN`: each left row is paired with every matching right row,
or with `none` when no right row matches. -/
def leftJoin {α β : Type} (ls : List α) (rs : List β) (c : α → β → Bool) :
    List (α × Option β) :=
  ls.flatMap fun a =>
    let ms := rs.filter (c a)
    if ms.isEmpty then [(a, none)] else ms.map fun b => (a, some b)

/-- The `WHERE` filter of the `describe_table` query (the bound parameter `tn`
is the already upper-cased table name). -/
def matchesWhere (tn : String) (r : RelationField) : Bool :=
  sysFlagOk r.systemFlag && chEq r.relationName tn

/-- A row of the `FROM ... LEFT JOIN ...` product of the `describe_table`
query, before grouping: `r`, then the null-extended `f`, `s`, `i`, `rc`. -/
def JoinRow : Type :=
  (((RelationField × Option FieldDef) × Option IndexSegment) × Option IndexRow)
    × Option RelationConstraint

/-- The `RDB$RELATION_FIELDS` row of a join row. -/
def JoinRow.r (jr : JoinRow) : RelationField := jr.1.1.1.1

/-- The (null-extended) `RDB$FIELDS` row of a join row. -/
def JoinRow.f (jr : JoinRow) : Option FieldDef := jr.1.1.1.2

/-- The (null-extended) `RDB$INDEX_SEGMENTS` row of a join row. -/
def JoinRow.s (jr : JoinRow) : Option IndexSegment := jr.1.1.2

/-- The (null-extended) `RDB$INDICES` row of a join row. -/
def JoinRow.i (jr : JoinRow) : Option IndexRow := jr.1.2

/-- The (null-extended) `RDB$RELATION_CONSTRAINTS` row of a join row. -/
def JoinRow.rc (jr : JoinRow) : Option RelationConstraint := jr.2

/-- `FROM RDB$RELATION_FIELDS r ... WHERE ...` followed by
`LEFT JOIN RDB$FIELDS f ON r.RDB$FIELD_SOURCE = f.RDB$FIELD_NAME`. -/
def stage1 (cat : Catalog) (tn : String) : List (RelationField × Option FieldDef) :=
  leftJoin (cat.relationFields.filter (matchesWhere tn)) cat.fields
    (fun r f => chEq r.fieldSource f.fieldName)

/-- `LEFT JOIN RDB$INDEX_SEGMENTS s ON s.RDB$FIELD_NAME = r.RDB$FIELD_NAME`. -/
def stage2 (cat : Catalog) (tn : String) :
    List ((RelationField × Option FieldDef) × Option IndexSegment) :=
  leftJoin (stage1 cat tn) cat.indexSegments
    (fun p seg => chEq seg.fieldName p.1.fieldName)

/-- `LEFT JOIN RDB$INDICES i ON i.RDB$INDEX_NAME = s.RDB$INDEX_NAME AND
i.RDB$RELATION_NAME = r.RDB$RELATION_NAME` (a comparison with a null `s`
column is not true). -/
def stage3 (cat : Catalog) (tn : String) :
    List (((RelationField × Option FieldDef) × Option IndexSegment) × Option IndexRow) :=
  leftJoin (stage2 cat tn) cat.indices
    (fun p idx =>
      match p.2 with
      | none => false
      | some seg => chEq idx.indexName seg.indexName && chEq idx.relationName p.1.1.relationName)

/-- `LEFT JOIN RDB$RELATION_CONSTRAINTS rc ON rc.RDB$INDEX_NAME =
s.RDB$INDEX_NAME AND rc.RDB$INDEX_NAME = i.RDB$INDEX_NAME AND
rc.RDB$RELATION_NAME = i.RDB$RELATION_NAME`. -/
def joinRows (cat : Catalog) (tn : String) : List JoinRow :=
  leftJoin (stage3 cat tn) cat.relationConstraints
    (fun p rc =>
      match p.1.2, p.2 with
      | some seg, some idx =>
          chEq rc.indexName seg.indexName && chEq rc.indexName idx.indexName
            && chEq rc.relationName idx.relationName
      | _, _ => false)

/-- The `GROUP BY` key of the `describe_table` query: every non-aggregated
select expression plus `r.RDB$FIELD_POSITION`. -/
structure GroupKey where
  fieldName : String
  fieldType : String
  fieldLength : Option Int
  fieldPrecision : Option Int
  fieldScale : Option Int
  nullable : Int
  dfltValue : Option String
  fieldPosition : Int
deriving DecidableEq

/-- The group key computed from an `r` row and its (null-extended) `f` row.
`CAST(r.RDB$DEFAULT_SOURCE AS VARCHAR(100))` is modelled as truncation to
100 characters. -/
def mkKey (r : RelationField) (f : Option FieldDef) : GroupKey :=
  { fieldName := sqlTrim r.fieldName
    fieldType :=
      match f with
      | none => "UNKNOWN"
      | some fd => fieldTypeName fd.fieldType
    fieldLength := f.bind (·.fieldLength)
    fieldPrecision := f.bind (·.fieldPrecision)
    fieldScale := f.bind (·.fieldScale)
    nullable := if r.nullFlag = some 1 then 0 else 1
    dfltValue := r.defaultSource.map (fun s => String.mk (s.toList.take 100))
    fieldPosition := r.fieldPosition }

/-- The group key of a join row. -/
def rowKey (jr : JoinRow) : GroupKey := mkKey jr.r jr.f

/-- One fetched row of the `describe_table` query: the group key together
with the two aggregated columns. -/
structure SqlRow where
  key : GroupKey
  constraintType : Option String
  indexName : Option String
deriving DecidableEq

/-- The smaller of two strings in lexicographic order. -/
def strMin (a b : String) : String := if b.toList < a.toList then b else a

/-- SQL `MIN` over the non-null values of a group: null on an all-null group,
otherwise the least value. -/
def minString : List String → Option String
  | [] => none
  | x :: xs => some (xs.foldl strMin x)

/-- The aggregated row of one group: `TRIM(MIN(rc.RDB$CONSTRAINT_TYPE))` and
`TRIM(MIN(i.RDB$INDEX_NAME))`, where `MIN` ignores nulls and is null on an
all-null group. -/
def aggRow (rows : List JoinRow) (k : GroupKey) : SqlRow :=
  let g := rows.filter (fun jr => decide (rowKey jr = k))
  { key := k
    constraintType := (minString (g.filterMap (fun jr => jr.rc.map (·.constraintType)))).map sqlTrim
    indexName := (minString (g.filterMap (fun jr => jr.i.map (·.indexName)))).map sqlTrim }

/-- `ORDER BY r.RDB$FIELD_POSITION` comparison on group keys. -/
def keyLE (a b : GroupKey) : Prop := a.fieldPosition ≤ b.fieldPosition

instance : DecidableRel keyLE :=
  fun a b => inferInstanceAs (Decidable (a.fieldPosition ≤ b.fieldPosition))

instance : IsTotal GroupKey keyLE := ⟨fun a b => le_total a.fieldPosition b.fieldPosition⟩

instance : IsTrans GroupKey keyLE := ⟨fun _ _ _ h h2 => le_trans h h2⟩

/-- The distinct group keys of the query, in `ORDER BY` order. -/
def sortedKeys (cat : Catalog) (tn : String) : List GroupKey :=
  List.insertionSort keyLE (((joinRows cat tn).map rowKey).dedup)

/-- The result set of the `describe_table` SQL query, in fetch order. -/
def sqlRows (cat : Catalog) (tn : String) : List SqlRow :=
  (sortedKeys cat tn).map (aggRow (joinRows cat tn))

/-- The descriptor record built by `describe_table` (pydantic `ColInfo`). -/
structure ColInfo where
  name : String
  data_type : String
  length : Int
  precision : Option Int
  scale : Option Int
  constraint_type : Option String
  constraint_name : Option String
  nullable : Bool
  default_value : Option String
deriving DecidableEq

/-- The Python loop body turning one fetched row into a `ColInfo`. -/
def colInfoOfRow (row : SqlRow) : ColInfo :=
  { name := pyStrip row.key.fieldName
    data_type := pyStrip row.key.fieldType
    length := row.key.fieldLength.getD 0
    precision := row.key.fieldPrecision
    scale := row.key.fieldScale
    constraint_type := pyOptStr row.constraintType
    constraint_name := pyOptStr row.indexName
    nullable := row.key.nullable != 0
    default_value := pyOptStr row.key.dfltValue }

/-- `describe_table`: run the catalog query with the upper-cased table name
as the bound parameter and map each fetched row to a `ColInfo`. -/
def describe_table (cat : Catalog) (table_name : String) : List ColInfo :=
  (sqlRows cat (pyUpper table_name)).map colInfoOfRow

/-- The canonical `RDB$FIELDS` row joined to an `r` row: when field names in
`RDB$FIELDS` are unique, the left join matches exactly this row (or none). -/
def fieldLookup (cat : Catalog) (r : RelationField) : Option FieldDef :=
  (cat.fields.filter (fun f => chEq r.fieldSource f.fieldName)).head?

/-- The group key determined by an `r` row alone (well-defined when
`RDB$FIELDS` names are unique). -/
def keyOfField (cat : Catalog) (r : RelationField) : GroupKey :=
  mkKey r (fieldLookup cat r)

/-- A value in a fetched row or a returned record. -/
inductive SqlValue
  | s (v : String)
  | i (n : Int)
  | null
deriving DecidableEq

/-- What the driver cursor exposes after `cur.execute(sql)` succeeds:
`cur.description` (the result-column names, `None` for statements with no
result set), the fetched rows and `cur.rowcount`. -/
structure CursorResult where
  description : Option (List String)
  rows : List (List SqlValue)
  rowcount : Int
deriving DecidableEq

/-- The outcome of handing a statement to the driver: a cursor result, or a
raised exception with its message (any failure inside the `try` block). -/
inductive ExecOutcome
  | ok (r : CursorResult)
  | err (msg : String)
deriving DecidableEq

/-- The driver connection, modelled by what it does to each SQL string. -/
structure Conn where
  exec : String → ExecOutcome

/-- The message of the `RuntimeError` raised by `get_connection` when the
global connection is still `None`. -/
def notInitMsg : String :=
  "Database connection not initialized. Please ensure the server is started correctly."

/-- `get_connection()`: return the global connection or raise. -/
def get_connection (con : Option Conn) : Except String Conn :=
  match con with
  | none => Except.error notInitMsg
  | some c => Except.ok c

/-- Python truthiness of `cur.description` (`None` and `[]` are falsy). -/
def descTruthy (d : Option (List String)) : Bool :=
  match d with
  | none => false
  | some l => !l.isEmpty

/-- A Python dict, as its insertion-ordered key/value list. -/
abbrev PyDict : Type := List (String × SqlValue)

/-- One dict insertion: an existing key is updated in place, a new key is
appended. -/
def dictInsert (d : PyDict) (k : String) (v : SqlValue) : PyDict :=
  if d.any (fun p => p.1 == k) then
    d.map (fun p => if p.1 == k then (k, v) else p)
  else
    d ++ [(k, v)]

/-- `dict(pairs)`: left-to-right insertion. -/
def dictOfPairs (ps : List (String × SqlValue)) : PyDict :=
  ps.foldl (fun d p => dictInsert d p.1 p.2) []

/-- A catalog with one two-column table `T` whose first column is covered by
two indices (a primary key and a unique constraint), so the index/constraint
joins multiply rows before grouping. -/
def multiIdxCat : Catalog :=
  { relations := [⟨"T", none, none⟩]
    relationFields :=
      [⟨"T", "A", "SA", 0, some 1, none, none⟩,
       ⟨"T", "B", "SB", 1, none, none, none⟩]
    fields := [⟨"SA", 8, some 4, none, none⟩, ⟨"SB", 37, some 20, none, none⟩]
    indexSegments := [⟨"I1", "A"⟩, ⟨"I2", "A"⟩]
    indices := [⟨"I1", "T"⟩, ⟨"I2", "T"⟩]
    relationConstraints :=
      [⟨"PK", "PRIMARY KEY", "T", "I1"⟩, ⟨"UQ", "UNIQUE", "T", "I2"⟩] }

/-- A catalog with one table `T` whose single column is covered by a plain
index `IDX` that backs no constraint. -/
def plainIdxCat : Catalog :=
  { relations := [⟨"T", none, none⟩]
    relationFields := [⟨"T", "A", "SA", 0, none, none, none⟩]
    fields := [⟨"SA", 8, some 4, none, none⟩]
    indexSegments := [⟨"IDX", "A"⟩]
    indices := [⟨"IDX", "T"⟩]
    relationConstraints := [] }

/-- A catalog with one table `T` whose single column is the primary key. -/
def pkCat : Catalog :=
  { relations := [⟨"T", none, none⟩]
    relationFields := [⟨"T", "A", "SA", 0, some 1, none, none⟩]
    fields := [⟨"SA", 8, some 4, none, none⟩]
    indexSegments := [⟨"PK_IDX", "A"⟩]
    indices := [⟨"PK_IDX", "T"⟩]
    relationConstraints := [⟨"PK", "PRIMARY KEY", "T", "PK_IDX"⟩] }

/-- A catalog whose single table column stores a default-value source text
with surrounding whitespace. -/
def dfltCat : Catalog :=
  { relations := [⟨"T", none, none⟩]
    relationFields := [⟨"T", "A", "SA", 0, none, some " DEFAULT 0 ", none⟩]
    fields := [⟨"SA", 8, some 4, none, none⟩]
    indexSegments := []
    indices := []
    relationConstraints := [] }

/-- A catalog with a user table, a view, a system relation and a table whose
stored name carries CHAR padding. -/
def mixedCat : Catalog :=
  { relations :=
      [⟨"T", none, none⟩, ⟨"V", some "blr", none⟩, ⟨"SYS", none, some 1⟩,
       ⟨"B  ", none, some 0⟩]
    relationFields := []
    fields := []
    indexSegments := []
    indices := []
    relationConstraints := [] }

/-- A catalog containing only a system-flagged relation. -/
def sysOnlyCat : Catalog :=
  { relations := [⟨"S", none, some 1⟩]
    relationFields := [⟨"S", "A", "SA", 0, none, none, some 1⟩]
    fields := [⟨"SA", 8, some 4, none, none⟩]
    indexSegments := []
    indices := []
    relationConstraints := [] }

/-- A connection whose driver always raises. -/
def failConn : Conn := ⟨fun _ => ExecOutcome.err "no such table"⟩

/-- A connection that answers `"U"` with a result-set-less cursor (3 rows
affected) and everything else with a one-row result set. -/
def branchConn : Conn :=
  ⟨fun sql =>
    if sql = "U" then ExecOutcome.ok ⟨none, [], 3⟩
    else ExecOutcome.ok ⟨some ["X", "Y"], [[SqlValue.i 1, SqlValue.s "a"]], -1⟩⟩

/-- `execute_query(sql)`. The returned boolean records whether
`con.commit()` ran. `Except.error` is an exception escaping to the caller;
`Except.ok` is a returned value (including the error-as-data record built
by the `except` clause). -/
def execute_query (con : Option Conn) (sql : String) :
    Except String (List PyDict × Bool) :=
  match get_connection con with
  | Except.error e => Except.error e
  | Except.ok c =>
    match c.exec sql with
    | ExecOutcome.err m => Except.ok ([[("error", SqlValue.s m)]], false)
    | ExecOutcome.ok r =>
      if descTruthy r.description then
        Except.ok
          (r.rows.map (fun row => dictOfPairs (List.zip (r.description.getD []) row)), false)
      else
        Except.ok ([[("status", SqlValue.s "Success"), ("rows_affected", SqlValue.i r.rowcount)]],
          true)

theorem mem_leftJoin {α β : Type} {ls : List α} {rs : List β} {c : α → β → Bool}
    {p : α × Option β} (h : p ∈ leftJoin ls rs c) :
    p.1 ∈ ls ∧ ((p.2 = none ∧ rs.filter (c p.1) = []) ∨
      ∃ b, p.2 = some b ∧ b ∈ rs.filter (c p.1)) := by
  simp only [leftJoin, List.mem_flatMap] at h
  obtain ⟨a, ha, hp⟩ := h
  split at hp
  · next he =>
    rw [List.mem_singleton] at hp
    subst hp
    exact ⟨ha, Or.inl ⟨rfl, List.isEmpty_iff.mp he⟩⟩
  · next he =>
    rw [List.mem_map] at hp
    obtain ⟨b, hb, hpb⟩ := hp
    subst hpb
    exact ⟨ha, Or.inr ⟨b, rfl, hb⟩⟩

theorem leftJoin_total {α β : Type} {ls : List α} (rs : List β) (c : α → β → Bool)
    {a : α} (ha : a ∈ ls) : ∃ ob, (a, ob) ∈ leftJoin ls rs c := by
  cases he : rs.filter (c a) with
  | nil =>
    refine ⟨none, ?_⟩
    simp only [leftJoin, List.mem_flatMap]
    exact ⟨a, ha, by simp [he]⟩
  | cons b t =>
    refine ⟨some b, ?_⟩
    simp only [leftJoin, List.mem_flatMap]
    refine ⟨a, ha, ?_⟩
    simp [he]

theorem mem_joinRows_stage3 {cat : Catalog} {tn : String} {jr : JoinRow}
    (h : jr ∈ joinRows cat tn) : jr.1 ∈ stage3 cat tn :=
  (mem_leftJoin h).1

theorem mem_stage3_stage2 {cat : Catalog} {tn : String}
    {q : ((RelationField × Option FieldDef) × Option IndexSegment) × Option IndexRow}
    (h : q ∈ stage3 cat tn) : q.1 ∈ stage2 cat tn :=
  (mem_leftJoin h).1

theorem mem_stage2_stage1 {cat : Catalog} {tn : String}
    {q : (RelationField × Option FieldDef) × Option IndexSegment}
    (h : q ∈ stage2 cat tn) : q.1 ∈ stage1 cat tn :=
  (mem_leftJoin h).1

theorem mem_stage1_filter {cat : Catalog} {tn : String}
    {p : RelationField × Option FieldDef} (h : p ∈ stage1 cat tn) :
    p.1 ∈ cat.relationFields.filter (matchesWhere tn) :=
  (mem_leftJoin h).1

theorem mem_joinRows_r {cat : Catalog} {tn : String} {jr : JoinRow}
    (h : jr ∈ joinRows cat tn) :
    jr.r ∈ cat.relationFields.filter (matchesWhere tn) :=
  mem_stage1_filter (mem_stage2_stage1 (mem_stage3_stage2 (mem_joinRows_stage3 h)))

theorem joinRows_total {cat : Catalog} {tn : String} {r : RelationField}
    (hr : r ∈ cat.relationFields.filter (matchesWhere tn)) :
    ∃ jr ∈ joinRows cat tn, jr.r = r := by
  obtain ⟨f, hf⟩ := leftJoin_total cat.fields
    (fun r f => chEq r.fieldSource f.fieldName) hr
  obtain ⟨os, hs⟩ := leftJoin_total cat.indexSegments
    (fun p seg => chEq seg.fieldName p.1.fieldName) hf
  obtain ⟨oi, hi⟩ := leftJoin_total cat.indices
    (fun p idx =>
      match p.2 with
      | none => false
      | some seg => chEq idx.indexName seg.indexName && chEq idx.relationName p.1.1.relationName)
    hs
  obtain ⟨orc, hrc⟩ := leftJoin_total cat.relationConstraints
    (fun p rc =>
      match p.1.2, p.2 with
      | some seg, some idx =>
          chEq rc.indexName seg.indexName && chEq rc.indexName idx.indexName
            && chEq rc.relationName idx.relationName
      | _, _ => false)
    hi
  exact ⟨((((r, f), os), oi), orc), hrc, rfl⟩

theorem fields_filter_subsingleton {cat : Catalog}
    (hf : cat.fields.Pairwise (fun a b => sqlTrim a.fieldName ≠ sqlTrim b.fieldName))
    (v : String) :
    ∀ x ∈ cat.fields.filter (fun f => chEq v f.fieldName),
      ∀ y ∈ cat.fields.filter (fun f => chEq v f.fieldName), x = y := by
  intro x hx y hy
  rw [List.mem_filter] at hx hy
  by_contra hne
  have hR : Symmetric (fun a b : FieldDef => sqlTrim a.fieldName ≠ sqlTrim b.fieldName) :=
    fun a b h e => h e.symm
  have h2 := hf.forall hR hx.1 hy.1 hne
  have ex : sqlTrim v = sqlTrim x.fieldName := by
    have := hx.2
    simpa [chEq] using this
  have ey : sqlTrim v = sqlTrim y.fieldName := by
    have := hy.2
    simpa [chEq] using this
  exact h2 (ex.symm.trans ey)

theorem stage1_snd_eq {cat : Catalog} {tn : String}
    (hf : cat.fields.Pairwise (fun a b => sqlTrim a.fieldName ≠ sqlTrim b.fieldName))
    {p : RelationField × Option FieldDef} (hp : p ∈ stage1 cat tn) :
    p.2 = fieldLookup cat p.1 := by
  have h := mem_leftJoin hp
  rcases h.2 with ⟨hn, he⟩ | ⟨b, hb, hbm⟩
  · rw [hn, fieldLookup]
    rw [he]
    rfl
  · have hsub := fields_filter_subsingleton hf p.1.fieldSource
    cases hfe : cat.fields.filter (fun f => chEq p.1.fieldSource f.fieldName) with
    | nil =>
      rw [hfe] at hbm
      cases hbm
    | cons x t =>
      have hbx : b = x := by
        apply hsub
        · exact hbm
        · rw [hfe]
          exact List.mem_cons_self x t
      rw [hb, fieldLookup, hfe, hbx]
      rfl

theorem rowKey_eq_keyOfField {cat : Catalog} {tn : String}
    (hf : cat.fields.Pairwise (fun a b => sqlTrim a.fieldName ≠ sqlTrim b.fieldName))
    {jr : JoinRow} (hj : jr ∈ joinRows cat tn) :
    rowKey jr = keyOfField cat jr.r := by
  have h1 : (jr.r, jr.f) ∈ stage1 cat tn :=
    mem_stage2_stage1 (mem_stage3_stage2 (mem_joinRows_stage3 hj))
  have := stage1_snd_eq hf h1
  rw [rowKey, keyOfField]
  rw [show jr.f = fieldLookup cat jr.r from this]

theorem keys_mem_iff {cat : Catalog} {tn : String}
    (hf : cat.fields.Pairwise (fun a b => sqlTrim a.fieldName ≠ sqlTrim b.fieldName))
    (k : GroupKey) :
    k ∈ (joinRows cat tn).map rowKey ↔
      k ∈ (cat.relationFields.filter (matchesWhere tn)).map (keyOfField cat) := by
  constructor
  · intro h
    rw [List.mem_map] at h
    obtain ⟨jr, hj, hk⟩ := h
    rw [List.mem_map]
    exact ⟨jr.r, mem_joinRows_r hj, by rw [← rowKey_eq_keyOfField hf hj, hk]⟩
  · intro h
    rw [List.mem_map] at h
    obtain ⟨r, hr, hk⟩ := h
    obtain ⟨jr, hj, hjr⟩ := joinRows_total hr
    rw [List.mem_map]
    refine ⟨jr, hj, ?_⟩
    rw [rowKey_eq_keyOfField hf hj, hjr, hk]

theorem keys_toFinset_eq {cat : Catalog} {tn : String}
    (hf : cat.fields.Pairwise (fun a b => sqlTrim a.fieldName ≠ sqlTrim b.fieldName)) :
    ((joinRows cat tn).map rowKey).toFinset
      = ((cat.relationFields.filter (matchesWhere tn)).map (keyOfField cat)).toFinset := by
  apply Finset.ext
  intro k
  rw [List.mem_toFinset, List.mem_toFinset]
  exact keys_mem_iff hf k

theorem keyOfField_map_nodup {cat : Catalog} {tn : String}
    (hm : (cat.relationFields.filter (matchesWhere tn)).Pairwise
      (fun a b => sqlTrim a.fieldName ≠ sqlTrim b.fieldName)) :
    ((cat.relationFields.filter (matchesWhere tn)).map (keyOfField cat)).Nodup := by
  apply List.Pairwise.map (keyOfField cat)
    (fun a b (h : sqlTrim a.fieldName ≠ sqlTrim b.fieldName) heq =>
      h (congrArg GroupKey.fieldName heq))
  exact hm

theorem sortedKeys_length {cat : Catalog} {tn : String}
    (hf : cat.fields.Pairwise (fun a b => sqlTrim a.fieldName ≠ sqlTrim b.fieldName))
    (hm : (cat.relationFields.filter (matchesWhere tn)).Pairwise
      (fun a b => sqlTrim a.fieldName ≠ sqlTrim b.fieldName)) :
    (sortedKeys cat tn).length = (cat.relationFields.filter (matchesWhere tn)).length := by
  have h1 : (sortedKeys cat tn).length = ((joinRows cat tn).map rowKey).dedup.length :=
    (List.perm_insertionSort keyLE _).length_eq
  have h2 : ((joinRows cat tn).map rowKey).dedup.length
      = ((cat.relationFields.filter (matchesWhere tn)).map (keyOfField cat)).dedup.length := by
    rw [← List.card_toFinset, ← List.card_toFinset, keys_toFinset_eq hf]
  have h3 : ((cat.relationFields.filter (matchesWhere tn)).map (keyOfField cat)).dedup
      = (cat.relationFields.filter (matchesWhere tn)).map (keyOfField cat) :=
    List.dedup_eq_self.mpr (keyOfField_map_nodup hm)
  rw [h1, h2, h3, List.length_map]

/-- C1: for every existing table with N stored columns (its matching
`RDB$RELATION_FIELDS` rows), `describe_table` returns exactly N descriptors,
one per physical column, in ascending physical field position, even when
several index segments or constraints match a column — the grouping
collapses the multiplied join rows. Field names are assumed unique (as they
are in a real catalog): per relation among the matching rows, and globally
in `RDB$FIELDS`. -/
theorem describe_table_one_row_per_column (cat : Catalog) (table_name : String)
    (hf : cat.fields.Pairwise (fun a b => sqlTrim a.fieldName ≠ sqlTrim b.fieldName))
    (hm : (cat.relationFields.filter (matchesWhere (pyUpper table_name))).Pairwise
      (fun a b => sqlTrim a.fieldName ≠ sqlTrim b.fieldName)) :
    (describe_table cat table_name).length
        = (cat.relationFields.filter (matchesWhere (pyUpper table_name))).length
      ∧ List.Sorted (· ≤ ·)
          ((sqlRows cat (pyUpper table_name)).map (fun row => row.key.fieldPosition)) := by
  constructor
  · rw [describe_table, List.length_map, sqlRows, List.length_map]
    exact sortedKeys_length hf hm
  · have hs := List.sorted_insertionSort keyLE
      (((joinRows cat (pyUpper table_name)).map rowKey).dedup)
    have h2 : ((sqlRows cat (pyUpper table_name)).map (fun row => row.key.fieldPosition))
        = (sortedKeys cat (pyUpper table_name)).map (fun k => k.fieldPosition) := by
      rw [sqlRows, List.map_map]
      rfl
    rw [h2]
    exact List.Pairwise.map (fun k => k.fieldPosition) (fun a b (h : keyLE a b) => h) hs

theorem describe_table_one_row_per_column_witness :
    (describe_table multiIdxCat "T").length
        = (multiIdxCat.relationFields.filter (matchesWhere (pyUpper "T"))).length
      ∧ List.Sorted (· ≤ ·)
          ((sqlRows multiIdxCat (pyUpper "T")).map (fun row => row.key.fieldPosition)) :=
  describe_table_one_row_per_column multiIdxCat "T" (by decide) (by decide)

/-- C2: when the driver raises for a statement, `execute_query` does not
re-raise: it returns (does not throw) a one-element list whose single record
carries the error text, and does not commit. -/
theorem execute_query_error_as_data (c : Conn) (sql msg : String)
    (h : c.exec sql = ExecOutcome.err msg) :
    execute_query (some c) sql = Except.ok ([[("error", SqlValue.s msg)]], false) := by
  simp [execute_query, get_connection, h]

theorem execute_query_error_as_data_witness :
    failConn.exec "SELECT * FROM NO_SUCH_TABLE" = ExecOutcome.err "no such table"
      ∧ execute_query (some failConn) "SELECT * FROM NO_SUCH_TABLE"
        = Except.ok ([[("error", SqlValue.s "no such table")]], false) :=
  ⟨rfl, execute_query_error_as_data failConn "SELECT * FROM NO_SUCH_TABLE" "no such table" rfl⟩

/-- C7: when the driver reports no described result set, `execute_query`
commits and returns exactly one status record carrying `cur.rowcount`; when
a result set is described, it fetches all rows, zips them against the
reported column names, and does not commit. -/
theorem execute_query_branches (c : Conn) (sql : String) (r : CursorResult)
    (h : c.exec sql = ExecOutcome.ok r) :
    (descTruthy r.description = false →
        execute_query (some c) sql
          = Except.ok ([[("status", SqlValue.s "Success"),
              ("rows_affected", SqlValue.i r.rowcount)]], true))
      ∧ (descTruthy r.description = true →
        execute_query (some c) sql
          = Except.ok ((r.rows.map (fun row =>
              dictOfPairs (List.zip (r.description.getD []) row))), false)) := by
  constructor <;> intro hd <;> simp [execute_query, get_connection, h, hd]

theorem execute_query_branches_witness :
    execute_query (some branchConn) "U"
        = Except.ok ([[("status", SqlValue.s "Success"), ("rows_affected", SqlValue.i 3)]], true)
      ∧ execute_query (some branchConn) "S"
        = Except.ok ([[("X", SqlValue.i 1), ("Y", SqlValue.s "a")]], false) := by
  constructor
  · exact (execute_query_branches branchConn "U" ⟨none, [], 3⟩ rfl).1 rfl
  · have h := (execute_query_branches branchConn "S"
      ⟨some ["X", "Y"], [[SqlValue.i 1, SqlValue.s "a"]], -1⟩ rfl).2 rfl
    rw [h]
    rfl

/-- C8: a type code outside the fixed decode table yields the string
`UNKNOWN` — the `CASE` expression is total and never 'fails'. -/
theorem unknown_type_code_maps_to_unknown (code : Int) (h : code ∉ knownTypeCodes) :
    fieldTypeName code = "UNKNOWN" := by
  simp only [knownTypeCodes, List.mem_cons, List.not_mem_nil, or_false, not_or] at h
  obtain ⟨h1, h2, h3, h4, h5, h6, h7, h8, h9, h10, h11, h12, h13, h14⟩ := h
  simp [fieldTypeName, h1, h2, h3, h4, h5, h6, h7, h8, h9, h10, h11, h12, h13, h14]

theorem unknown_type_code_maps_to_unknown_witness :
    (999 : Int) ∉ knownTypeCodes ∧ fieldTypeName 999 = "UNKNOWN" :=
  ⟨by decide, unknown_type_code_maps_to_unknown 999 (by decide)⟩

/-- C9: a table name matching no catalog rows (nonexistent or system table)
yields an empty descriptor list, not an error. -/
theorem describe_table_empty_on_no_match (cat : Catalog) (name : String)
    (h : cat.relationFields.filter (matchesWhere (pyUpper name)) = []) :
    describe_table cat name = [] := by
  simp [describe_table, sqlRows, sortedKeys, joinRows, stage3, stage2, stage1, leftJoin, h]

theorem describe_table_empty_on_no_match_witness :
    sysOnlyCat.relationFields.filter (matchesWhere (pyUpper "S")) = []
      ∧ describe_table sysOnlyCat "S" = [] :=
  ⟨by decide, describe_table_empty_on_no_match sysOnlyCat "S" (by decide)⟩

/-- C10: with the connection still uninitialized, `execute_query` raises the
not-initialized `RuntimeError` to the caller (the `get_connection()` call
sits before the `try` block), instead of returning an error-as-data value. -/
theorem execute_query_uninitialized_raises (sql : String) :
    execute_query none sql = Except.error notInitMsg := rfl

theorem mem_describe_table {cat : Catalog} {name : String} {d : ColInfo}
    (hd : d ∈ describe_table cat name) :
    ∃ row ∈ sqlRows cat (pyUpper name), d = colInfoOfRow row := by
  rw [describe_table, List.mem_map] at hd
  obtain ⟨row, hr, he⟩ := hd
  exact ⟨row, hr, he.symm⟩

theorem mem_sqlRows {cat : Catalog} {tn : String} {row : SqlRow}
    (h : row ∈ sqlRows cat tn) :
    ∃ jr ∈ joinRows cat tn, row = aggRow (joinRows cat tn) (rowKey jr) := by
  rw [sqlRows, List.mem_map] at h
  obtain ⟨k, hk, he⟩ := h
  have hk2 : k ∈ ((joinRows cat tn).map rowKey).dedup :=
    (List.perm_insertionSort keyLE _).mem_iff.mp hk
  rw [List.mem_dedup, List.mem_map] at hk2
  obtain ⟨jr, hj, hkey⟩ := hk2
  refine ⟨jr, hj, ?_⟩
  rw [← he, hkey]

/-- C5: each descriptor's `nullable` is `false` exactly when the catalog
not-null flag of the corresponding column row equals 1. -/
theorem nullable_iff_null_flag (cat : Catalog) (name : String) (d : ColInfo)
    (hd : d ∈ describe_table cat name) :
    ∃ r ∈ cat.relationFields, matchesWhere (pyUpper name) r = true
      ∧ d.name = pyStrip (sqlTrim r.fieldName)
      ∧ (d.nullable = false ↔ r.nullFlag = some 1) := by
  obtain ⟨row, hrow, hdc⟩ := mem_describe_table hd
  obtain ⟨jr, hj, hagg⟩ := mem_sqlRows hrow
  have hr := mem_joinRows_r hj
  rw [List.mem_filter] at hr
  refine ⟨jr.r, hr.1, hr.2, ?_, ?_⟩
  · rw [hdc, hagg]
    rfl
  · rw [hdc, hagg]
    show ((if jr.r.nullFlag = some 1 then (0 : Int) else 1) != 0) = false
      ↔ jr.r.nullFlag = some 1
    by_cases hn : jr.r.nullFlag = some 1 <;> simp [hn]

theorem nullable_iff_null_flag_witness :
    ∃ r ∈ pkCat.relationFields, matchesWhere (pyUpper "T") r = true
      ∧ (ColInfo.mk "A" "INTEGER" 4 none none (some "PRIMARY KEY") (some "PK_IDX")
          false none).name = pyStrip (sqlTrim r.fieldName)
      ∧ ((ColInfo.mk "A" "INTEGER" 4 none none (some "PRIMARY KEY") (some "PK_IDX")
          false none).nullable = false ↔ r.nullFlag = some 1) :=
  nullable_iff_null_flag pkCat "T"
    (ColInfo.mk "A" "INTEGER" 4 none none (some "PRIMARY KEY") (some "PK_IDX") false none)
    (by decide)

/-- C4 counterexample: the catalog stores the default source text
`" DEFAULT 0 "` (with surrounding whitespace), but the descriptor returns
`"DEFAULT 0"` — not the raw text exactly as stored. -/
theorem default_value_raw_cex :
    dfltCat.relationFields.map (fun r => r.defaultSource) = [some " DEFAULT 0 "]
      ∧ (describe_table dfltCat "T").map (fun d => d.default_value) = [some "DEFAULT 0"]
      ∧ (some " DEFAULT 0 " : Option String) ≠ some "DEFAULT 0" := by
  refine ⟨by decide, by decide, by decide⟩

/-- C4 amended: each descriptor's `defaultValue` is the stored default-value
source text cast to `VARCHAR(100)` (modelled as truncation to 100
characters) and then Python-stripped of surrounding whitespace; it is unset
when the stored value is null or the empty string. -/
theorem default_value_stripped (cat : Catalog) (name : String) (d : ColInfo)
    (hd : d ∈ describe_table cat name) :
    ∃ r ∈ cat.relationFields, matchesWhere (pyUpper name) r = true
      ∧ d.name = pyStrip (sqlTrim r.fieldName)
      ∧ d.default_value
        = pyOptStr (r.defaultSource.map (fun s => String.mk (s.toList.take 100))) := by
  obtain ⟨row, hrow, hdc⟩ := mem_describe_table hd
  obtain ⟨jr, hj, hagg⟩ := mem_sqlRows hrow
  have hr := mem_joinRows_r hj
  rw [List.mem_filter] at hr
  refine ⟨jr.r, hr.1, hr.2, ?_, ?_⟩
  · rw [hdc, hagg]
    rfl
  · rw [hdc, hagg]
    rfl

theorem default_value_stripped_witness :
    ∃ r ∈ dfltCat.relationFields, matchesWhere (pyUpper "T") r = true
      ∧ (ColInfo.mk "A" "INTEGER" 4 none none none none true
          (some "DEFAULT 0")).name = pyStrip (sqlTrim r.fieldName)
      ∧ (ColInfo.mk "A" "INTEGER" 4 none none none none true
          (some "DEFAULT 0")).default_value
        = pyOptStr (r.defaultSource.map (fun s => String.mk (s.toList.take 100))) :=
  default_value_stripped dfltCat "T"
    (ColInfo.mk "A" "INTEGER" 4 none none none none true (some "DEFAULT 0"))
    (by decide)

theorem strMin_or (a b : String) : strMin a b = a ∨ strMin a b = b := by
  rw [strMin]
  split
  · exact Or.inr rfl
  · exact Or.inl rfl

theorem foldl_strMin_mem (xs : List String) (x : String) :
    xs.foldl strMin x = x ∨ xs.foldl strMin x ∈ xs := by
  induction xs generalizing x with
  | nil => exact Or.inl rfl
  | cons y ys ih =>
    rw [List.foldl_cons]
    rcases ih (strMin x y) with h | h
    · rcases strMin_or x y with h2 | h2
      · left
        rw [h, h2]
      · right
        rw [h, h2]
        exact List.mem_cons_self y ys
    · right
      exact List.mem_cons_of_mem y h

theorem minString_mem {l : List String} {m : String} (h : minString l = some m) :
    m ∈ l := by
  cases l with
  | nil => cases h
  | cons x xs =>
    rw [minString, Option.some_inj] at h
    rcases foldl_strMin_mem xs x with h2 | h2
    · rw [← h, h2]
      exact List.mem_cons_self x xs
    · rw [← h]
      exact List.mem_cons_of_mem x h2

theorem minString_isSome {l : List String} (h : l ≠ []) :
    ∃ m, minString l = some m := by
  cases l with
  | nil => exact absurd rfl h
  | cons x xs => exact ⟨xs.foldl strMin x, rfl⟩

theorem joinRows_i_mem {cat : Catalog} {tn : String} {jr : JoinRow}
    (hj : jr ∈ joinRows cat tn) {idx : IndexRow} (hi : jr.i = some idx) :
    idx ∈ cat.indices := by
  have h := mem_leftJoin (mem_joinRows_stage3 hj)
  rcases h.2 with ⟨hn, _⟩ | ⟨b, hb, hbm⟩
  · rw [JoinRow.i, hn] at hi
    cases hi
  · rw [JoinRow.i, hb, Option.some_inj] at hi
    rw [← hi]
    exact (List.mem_filter.mp hbm).1

theorem joinRows_rc_has_i {cat : Catalog} {tn : String} {jr : JoinRow}
    (hj : jr ∈ joinRows cat tn) {rc : RelationConstraint} (hrc : jr.rc = some rc) :
    ∃ idx, jr.i = some idx := by
  have h := mem_leftJoin hj
  rcases h.2 with ⟨hn, _⟩ | ⟨b, hb, hbm⟩
  · rw [JoinRow.rc, hn] at hrc
    cases hrc
  · have hcond := (List.mem_filter.mp hbm).2
    rcases hs : jr.1.1.2 with _ | seg
    · rw [hs] at hcond
      cases hcond
    · rcases hi2 : jr.1.2 with _ | idx
      · rw [hs, hi2] at hcond
        cases hcond
      · exact ⟨idx, hi2⟩

theorem colInfo_ct (rows : List JoinRow) (k : GroupKey) :
    (colInfoOfRow (aggRow rows k)).constraint_type
      = pyOptStr ((minString ((rows.filter (fun jr => decide (rowKey jr = k))).filterMap
          (fun jr => jr.rc.map (·.constraintType)))).map sqlTrim) := rfl

theorem colInfo_cn (rows : List JoinRow) (k : GroupKey) :
    (colInfoOfRow (aggRow rows k)).constraint_name
      = pyOptStr ((minString ((rows.filter (fun jr => decide (rowKey jr = k))).filterMap
          (fun jr => jr.i.map (·.indexName)))).map sqlTrim) := rfl

/-- C3 counterexample: on a table whose single column is covered by a plain
index backing no constraint, the descriptor carries a `constraint_name` (the
index name) but no `constraint_type` — the two fields do not co-occur. -/
theorem constraint_fields_cooccur_cex :
    ¬ (∀ d ∈ describe_table plainIdxCat "T",
        (d.constraint_name.isSome = true ↔ d.constraint_type.isSome = true)) := by
  decide

/-- C3 amended: the implication holds in one direction only — whenever a
descriptor has `constraint_type` set, `constraint_name` is set as well
(assuming index names do not trim to the empty string); the converse fails,
as a column covered by a non-constraint index gets a `constraint_name`
without a `constraint_type`. -/
theorem constraint_type_implies_constraint_name (cat : Catalog) (name : String)
    (d : ColInfo)
    (hidx : ∀ i ∈ cat.indices, sqlTrim i.indexName ≠ "")
    (hd : d ∈ describe_table cat name)
    (hc : d.constraint_type.isSome = true) :
    d.constraint_name.isSome = true := by
  obtain ⟨row, hrow, hdc⟩ := mem_describe_table hd
  obtain ⟨jr, hj, hagg⟩ := mem_sqlRows hrow
  rw [hdc, hagg] at hc
  rw [hdc, hagg]
  rw [colInfo_ct] at hc
  rw [colInfo_cn]
  cases hmin : minString (((joinRows cat (pyUpper name)).filter
      (fun jr2 => decide (rowKey jr2 = rowKey jr))).filterMap
      (fun jr2 => jr2.rc.map (·.constraintType))) with
  | none =>
    rw [hmin] at hc
    simp [pyOptStr] at hc
  | some m =>
    have hmem := minString_mem hmin
    rw [List.mem_filterMap] at hmem
    obtain ⟨jr1, hjr1, hmap⟩ := hmem
    rw [Option.map_eq_some'] at hmap
    obtain ⟨rc, hrc, _⟩ := hmap
    have hjr1rows : jr1 ∈ joinRows cat (pyUpper name) := (List.mem_filter.mp hjr1).1
    obtain ⟨idx, hi⟩ := joinRows_rc_has_i hjr1rows hrc
    have hins : idx.indexName ∈ ((joinRows cat (pyUpper name)).filter
        (fun jr2 => decide (rowKey jr2 = rowKey jr))).filterMap
        (fun jr2 => jr2.i.map (·.indexName)) := by
      rw [List.mem_filterMap]
      refine ⟨jr1, hjr1, ?_⟩
      rw [show jr1.i = some idx from hi]
      rfl
    obtain ⟨m2, hm2⟩ := minString_isSome (List.ne_nil_of_mem hins)
    rw [hm2]
    have hm2mem := minString_mem hm2
    rw [List.mem_filterMap] at hm2mem
    obtain ⟨jr2, hjr2, hmap2⟩ := hm2mem
    rw [Option.map_eq_some'] at hmap2
    obtain ⟨idx2, hidx2, hname2⟩ := hmap2
    have hidx2mem : idx2 ∈ cat.indices :=
      joinRows_i_mem (List.mem_filter.mp hjr2).1 hidx2
    have hne : sqlTrim m2 ≠ "" := by
      rw [← hname2]
      exact hidx idx2 hidx2mem
    simp [pyOptStr, hne]

theorem constraint_type_implies_constraint_name_witness :
    (ColInfo.mk "A" "INTEGER" 4 none none (some "PRIMARY KEY") (some "PK_IDX")
      false none).constraint_name.isSome = true :=
  constraint_type_implies_constraint_name pkCat "T"
    (ColInfo.mk "A" "INTEGER" 4 none none (some "PRIMARY KEY") (some "PK_IDX") false none)
    (by decide) (by decide) (by decide)

/-- C6: `list_tables` returns only relations that are neither views nor
system-flagged, with each name trimmed, sorted ascending, and (when catalog
relation names are unique, as they are in a real catalog) free of
duplicates. -/
theorem list_tables_filtered_sorted_nodup (cat : Catalog)
    (hrel : cat.relations.Pairwise
      (fun a b => sqlTrim a.relationName ≠ sqlTrim b.relationName)) :
    (∀ n ∈ list_tables cat, ∃ rel ∈ cat.relations,
        rel.viewBlr = none ∧ (rel.systemFlag = none ∨ rel.systemFlag = some 0)
          ∧ n = sqlTrim rel.relationName)
      ∧ List.Sorted (· ≤ ·) (list_tables cat)
      ∧ (list_tables cat).Nodup := by
  refine ⟨?_, ?_, ?_⟩
  · intro n hn
    have hn2 : n ∈ (cat.relations.filter relationOk).map
        (fun rel => sqlTrim rel.relationName) :=
      (List.perm_insertionSort nameLE _).mem_iff.mp hn
    rw [List.mem_map] at hn2
    obtain ⟨rel, hrelm, he⟩ := hn2
    rw [List.mem_filter] at hrelm
    have hok := hrelm.2
    rw [relationOk, Bool.and_eq_true] at hok
    refine ⟨rel, hrelm.1, Option.isNone_iff_eq_none.mp hok.1, ?_, he.symm⟩
    cases hf : rel.systemFlag with
    | none => exact Or.inl rfl
    | some v =>
      right
      have h2 := hok.2
      rw [hf, sysFlagOk] at h2
      rw [show v = 0 from by simpa using h2]
  · exact (List.sorted_insertionSort nameLE _).imp (fun h => h)
  · have h1 : (cat.relations.filter relationOk).Pairwise
        (fun a b => sqlTrim a.relationName ≠ sqlTrim b.relationName) :=
      hrel.sublist (List.filter_sublist cat.relations)
    have h2 : ((cat.relations.filter relationOk).map
        (fun rel => sqlTrim rel.relationName)).Pairwise (fun a b => a ≠ b) :=
      List.Pairwise.map (fun (rel : RelationRow) => sqlTrim rel.relationName)
        (fun (a b : RelationRow)
          (h : sqlTrim a.relationName ≠ sqlTrim b.relationName) => h) h1
    exact (List.perm_insertionSort nameLE _).symm.nodup h2

theorem list_tables_filtered_sorted_nodup_witness :
    (∀ n ∈ list_tables mixedCat, ∃ rel ∈ mixedCat.relations,
        rel.viewBlr = none ∧ (rel.systemFlag = none ∨ rel.systemFlag = some 0)
          ∧ n = sqlTrim rel.relationName)
      ∧ List.Sorted (· ≤ ·) (list_tables mixedCat)
      ∧ (list_tables mixedCat).Nodup :=
  list_tables_filtered_sorted_nodup mixedCat (by decide)
